import Mathlib

/-!
Shallow embedding of the goBackend movie-review service.

Strings model Go strings; all strings manipulated by the program are
ASCII, so Lean characters stand for Go bytes one-for-one.

The embedding covers:
* the fragment of Go's `time` package used by the code: `time.Parse`
  with the fixed layout `time.RFC822` ("02 Jan 06 15:04 MST") and
  `Time.Format` with the same layout (`GoTime`, `timeParseRFC822`,
  `formatRFC822`);
* `NewReview` (review construction with date normalization);
* the storage layer semantics: the `public.reviews` table under the
  prepared INSERT / UPDATE / DELETE / SELECT statements of storage.go
  (`ReviewsTable`, `CreateReview`, `UpdateReview`, `DeleteReview`,
  `GetReviewById`);
* the HTTP handler layer of api.go (`handleCreateReview`,
  `handleGetReview`, `handleDeleteReview`, `handleUpdateReview`,
  `makeHttpHandleFunc`).

Go's `s[0:19]` byte-slice panics when the string is shorter than 19
bytes; this is modelled by `goSliceTo` returning `none`, and a panic
escaping a handler is the `HandlerStep.panicked` outcome (no response
is emitted through the handler layer in that case).
-/

namespace GoBackend

/-- A Go `time.Time` restricted to the fields observable through the
RFC822 layout: calendar date, wall-clock hour and minute, and the
location's zone abbreviation (with its offset, printed only when the
abbreviation is empty). -/
structure GoTime where
  year : Nat
  month : Nat
  day : Nat
  hour : Nat
  minute : Nat
  zoneName : String
  offsetMinutes : Int
deriving Repr, DecidableEq

def isDigitChar (c : Char) : Bool := '0' ≤ c && c ≤ '9'

def digitVal (c : Char) : Nat := c.toNat - '0'.toNat

def isUpperChar (c : Char) : Bool := 'A' ≤ c && c ≤ 'Z'

/-- Go `getnum` with `fixed = true`: exactly two decimal digits. -/
def getnum2 : List Char → Option (Nat × List Char)
  | c1 :: c2 :: rest =>
    if isDigitChar c1 && isDigitChar c2 then
      some (digitVal c1 * 10 + digitVal c2, rest)
    else none
  | _ => none

/-- Go `getnum` with `fixed = false`: one or two decimal digits. -/
def getnumFlex : List Char → Option (Nat × List Char)
  | c1 :: c2 :: rest =>
    if isDigitChar c1 then
      if isDigitChar c2 then some (digitVal c1 * 10 + digitVal c2, rest)
      else some (digitVal c1, c2 :: rest)
    else none
  | [c1] => if isDigitChar c1 then some (digitVal c1, []) else none
  | [] => none

def expectChar (c : Char) : List Char → Option (List Char)
  | d :: rest => if d = c then some rest else none
  | [] => none

/-- Go's `match` helper from time/format.go: byte equality up to
ASCII case folding (c1 vert-bar 0x20). -/
def charFoldMatch (c1 c2 : Char) : Bool :=
  c1 = c2 ||
    (let l1 := c1.toNat ||| 32
     let l2 := c2.toNat ||| 32
     l1 = l2 && 97 ≤ l1 && l1 ≤ 122)

def strFoldMatch : List Char → List Char → Bool
  | [], [] => true
  | a :: as, b :: bs => charFoldMatch a b && strFoldMatch as bs
  | _, _ => false

def shortMonthNames : List (List Char) :=
  [['J','a','n'], ['F','e','b'], ['M','a','r'], ['A','p','r'],
   ['M','a','y'], ['J','u','n'], ['J','u','l'], ['A','u','g'],
   ['S','e','p'], ['O','c','t'], ['N','o','v'], ['D','e','c']]

/-- Go's `lookup(shortMonthNames, value)`: first case-insensitive
prefix match, returning the 1-based month and the remainder. -/
def lookupMonthFrom : Nat → List (List Char) → List Char → Option (Nat × List Char)
  | _, [], _ => none
  | i, name :: names, s =>
    if strFoldMatch (s.take name.length) name && name.length ≤ s.length then
      some (i, s.drop name.length)
    else lookupMonthFrom (i + 1) names s

def lookupMonth (s : List Char) : Option (Nat × List Char) :=
  lookupMonthFrom 1 shortMonthNames s

/-- Go `stdYear` handling: two characters through `atoi` (so a sign
followed by one digit is also accepted), then the 69-pivot mapping to
1969..2068. -/
def parseYear2 : List Char → Option (Nat × List Char)
  | c1 :: c2 :: rest =>
    if isDigitChar c1 && isDigitChar c2 then
      let y := digitVal c1 * 10 + digitVal c2
      some (if 69 ≤ y then y + 1900 else y + 2000, rest)
    else if (c1 = '-' || c1 = '+') && isDigitChar c2 then
      let v : Int := if c1 = '-' then -(digitVal c2 : Int) else (digitVal c2 : Int)
      some ((v + 2000).toNat, rest)
    else none
  | _ => none

/-- Go `parseSignedOffset`: a sign, then decimal digits whose value is
at most 23; returns the number of bytes consumed (0 on failure). -/
def parseSignedOffset (s : List Char) : Nat :=
  match s with
  | c :: rest =>
    if c = '-' || c = '+' then
      let digits := rest.takeWhile isDigitChar
      if digits = [] then 0
      else
        let x := digits.foldl (fun a d => a * 10 + digitVal d) 0
        if 23 < x then 0 else 1 + digits.length
    else 0
  | [] => 0

/-- Go `parseGMT`: "GMT" optionally followed by a signed hour. -/
def parseGMT (s : List Char) : Nat :=
  if s.drop 3 = [] then 3 else 3 + parseSignedOffset (s.drop 3)

def upperRunLen (s : List Char) : Nat :=
  min 6 (s.takeWhile isUpperChar).length

/-- Go `parseTimeZone`: how many bytes of `s` form a zone
abbreviation, if any.  Anything shorter than three bytes is rejected;
then the special cases in Go's order: "ChST"/"MeST" (the only
abbreviations with a lower-case letter), "GMT" with an optional signed
hour, a signed numeric offset such as "+03" or "-04" (length 0 from
`parseSignedOffset` means failure), and otherwise a run of three to
five upper-case letters, the four/five-letter cases required to end
in 'T' (plus "WITA"). -/
def parseTimeZone (s : List Char) : Option Nat :=
  if s.length < 3 then
    none
  else if s.take 4 = ['C','h','S','T'] || s.take 4 = ['M','e','S','T'] then
    some 4
  else if s.take 3 = ['G','M','T'] then
    some (parseGMT s)
  else if s.head? = some '+' || s.head? = some '-' then
    (let n := parseSignedOffset s
     if 0 < n then some n else none)
  else
    match upperRunLen s with
    | 3 => some 3
    | 4 => if s.get? 3 = some 'T' || s.take 4 = ['W','I','T','A'] then some 4 else none
    | 5 => if s.get? 4 = some 'T' then some 5 else none
    | _ => none

/-- The `stdTZ` case of Go `Parse`: the "UTC" fast path, otherwise
`parseTimeZone`; yields the zone abbreviation and the remainder. -/
def parseZone (s : List Char) : Option (List Char × List Char) :=
  if s.take 3 = ['U','T','C'] then some (['U','T','C'], s.drop 3)
  else
    match parseTimeZone s with
    | some n => some (s.take n, s.drop n)
    | none => none

def isLeapYear (y : Nat) : Bool :=
  y % 4 = 0 && (y % 100 ≠ 0 || y % 400 = 0)

def daysIn (month year : Nat) : Nat :=
  if month = 2 then (if isLeapYear year then 29 else 28)
  else if month = 4 || month = 6 || month = 9 || month = 11 then 30
  else 31

/-- Go `time.Parse(time.RFC822, s)`: layout "02 Jan 06 15:04 MST".
Chunks in order: fixed two-digit day, literal space, month name,
literal space, two-character year, literal space, one-or-two-digit
hour, literal colon, fixed two-digit minute, literal space, zone
abbreviation; then no text may remain and the day/hour/minute range
checks must pass.  A parsed zone abbreviation prints back verbatim
under Format (either via `FixedZone(name, 0)` or via a local zone of
the same name), so the abbreviation is recorded as `zoneName`. -/
def timeParseRFC822 (s : String) : Option GoTime := do
  let cs := s.toList
  let (day, r1) ← getnum2 cs
  let r2 ← expectChar ' ' r1
  let (month, r3) ← lookupMonth r2
  let r4 ← expectChar ' ' r3
  let (year, r5) ← parseYear2 r4
  let r6 ← expectChar ' ' r5
  let (hour, r7) ← getnumFlex r6
  let r8 ← expectChar ':' r7
  let (minute, r9) ← getnum2 r8
  let r10 ← expectChar ' ' r9
  let (zone, r11) ← parseZone r10
  if r11 = [] ∧ 1 ≤ day ∧ day ≤ daysIn month year ∧ hour ≤ 23 ∧ minute ≤ 59 then
    some { year := year, month := month, day := day, hour := hour, minute := minute,
           zoneName := String.mk zone, offsetMinutes := 0 }
  else
    none

/-- Two-digit zero padding, as Go `appendInt(b, v, 2)`. -/
def pad2 (n : Nat) : String :=
  if n < 10 then "0" ++ Nat.repr n else Nat.repr n

def monthAbbr (m : Nat) : String :=
  String.mk (shortMonthNames.getD (m - 1) ['?','?','?'])

/-- The numeric "-0700"-style zone Go prints when the zone
abbreviation is empty. -/
def formatNumericZone (offsetMinutes : Int) : String :=
  let sign := if offsetMinutes < 0 then "-" else "+"
  let z := offsetMinutes.natAbs
  sign ++ pad2 (z / 60) ++ pad2 (z % 60)

/-- Go `t.Format(time.RFC822)`: "DD Mon YY HH:MM " followed by the
zone abbreviation (or the numeric offset when the abbreviation is
empty). -/
def formatRFC822 (t : GoTime) : String :=
  pad2 t.day ++ " " ++ monthAbbr t.month ++ " " ++ pad2 (t.year % 100) ++ " " ++
    pad2 t.hour ++ ":" ++ pad2 t.minute ++ " " ++
    (if t.zoneName = "" then formatNumericZone t.offsetMinutes else t.zoneName)

/-- Go byte-slicing `s[0:n]`: defined only when the string has at
least `n` bytes; `none` models the runtime panic
"slice bounds out of range". -/
def goSliceTo (n : Nat) (s : String) : Option String :=
  if n ≤ s.length then some (String.mk (s.toList.take n)) else none

/-! ## The Review data model (final block of the types file) -/

/-- The JSON shape of a POST /review body. -/
structure CreateReviewRequest where
  Title : String
  Director : String
  ReleaseDate : String
  Rating : String
  ReviewNotes : String
deriving Repr, DecidableEq

/-- The Review entity, as stored and as serialized in responses. -/
structure Review where
  ID : Int
  Title : String
  Director : String
  ReleaseDate : String
  Rating : String
  ReviewNotes : String
  DateCreated : String
deriving Repr, DecidableEq

/-- Model of `NewReview` from the types file: parse `releaseDate` against
RFC822, falling back to the current time on failure; both the release
date and the creation stamp are the RFC822 serialization byte-sliced
with `[0:19]`.  The Go function never assigns `ID`, which therefore
keeps the zero value 0.  The result is `none` when either slice
panics.  `now` is the value `time.Now()` returns during the call. -/
def NewReview (title director releaseDate rating reviewNotes : String)
    (now : GoTime) : Option Review := do
  let dateTime := (timeParseRFC822 releaseDate).getD now
  let dateString ← goSliceTo 19 (formatRFC822 dateTime)
  let dateCreated ← goSliceTo 19 (formatRFC822 now)
  some { ID := 0, Title := title, Director := director, ReleaseDate := dateString,
         Rating := rating, ReviewNotes := reviewNotes, DateCreated := dateCreated }

/-! ## The storage layer (storage.go) -/

/-- The `public.reviews` table: rows in insertion order, plus the
SERIAL sequence value the next INSERT will consume.  Each row's `ID`
is the database-assigned primary key. -/
structure ReviewsTable where
  rows : List Review
  nextId : Int
deriving Repr, DecidableEq

/-- A freshly created table: no rows, SERIAL sequence at 1. -/
def emptyReviews : ReviewsTable := { rows := [], nextId := 1 }

/-- Model of `PgDb.CreateReview`: the prepared INSERT writes title, director,
releaseDate, rating, reviewNotes and dateCreated; the `id` of the
argument is ignored and the database assigns the sequence value.  The
returned string is the success message; the assigned id is never
reported back to the caller. -/
def CreateReview (db : ReviewsTable) (review : Review) : String × ReviewsTable :=
  ("Review Created :: Recorded In DB:: " ++ review.DateCreated,
   { rows := db.rows ++ [{ review with ID := db.nextId }], nextId := db.nextId + 1 })

/-- The SET clause of the prepared UPDATE applied to one row. -/
def applyUpdate (rv r : Review) : Review :=
  if r.ID = rv.ID then
    { r with Title := rv.Title, Director := rv.Director, ReleaseDate := rv.ReleaseDate,
             Rating := rv.Rating, ReviewNotes := rv.ReviewNotes }
  else r

/-- Model of `PgDb.UpdateReview`: executes
UPDATE ... SET title, director, releaseDate, rating, reviewNotes WHERE id,
then errors when `RowsAffected` is zero. -/
def UpdateReview (db : ReviewsTable) (rv : Review) : Except String Unit × ReviewsTable :=
  let affected := db.rows.countP (fun r => r.ID == rv.ID)
  let db' : ReviewsTable := { db with rows := db.rows.map (applyUpdate rv) }
  if affected = 0 then
    (Except.error ("review with id " ++ toString rv.ID ++ " not found"), db')
  else
    (Except.ok (), db')

/-- Model of `PgDb.DeleteReview`: DELETE FROM reviews WHERE id, then errors
when `RowsAffected` is zero. -/
def DeleteReview (db : ReviewsTable) (id : Int) : Except String Unit × ReviewsTable :=
  let affected := db.rows.countP (fun r => r.ID == id)
  let db' : ReviewsTable := { db with rows := db.rows.filter (fun r => !(r.ID == id)) }
  if affected = 0 then
    (Except.error ("review with id " ++ toString id ++ " not found"), db)
  else
    (Except.ok (), db')

/-- Model of `PgDb.GetReviewById`: SELECT ... WHERE id, scanning the first row;
with no matching row, `QueryRow.Scan` yields `sql.ErrNoRows`, wrapped
as "failed to get review: ...". -/
def GetReviewById (db : ReviewsTable) (id : Int) : Except String Review :=
  match db.rows.find? (fun r => r.ID == id) with
  | some r => Except.ok r
  | none => Except.error "failed to get review: sql: no rows in result set"

/-! ## The Storage interface and the handler layer (api.go) -/

/-- The `Storage` interface: each operation observes and transforms a
backend state of type σ and may fail with an error message.  `PgDb`
instantiates it; handler-layer facts quantify over arbitrary
implementations (covering persistence and timeout failures, which
surface as arbitrary error results). -/
structure StorageOps (σ : Type) where
  createReview : σ → Review → Except String String × σ
  updateReview : σ → Review → Except String Unit × σ
  deleteReview : σ → Int → Except String Unit × σ
  getReviewById : σ → Int → Except String Review × σ

/-- The `PgDb` backend over the pure table model.  In this model the
INSERT itself does not fail; read-only SELECT leaves the state
unchanged; a zero-rows UPDATE or DELETE leaves the state unchanged. -/
def pgStorage : StorageOps ReviewsTable where
  createReview := fun db rv =>
    let (msg, db') := CreateReview db rv
    (Except.ok msg, db')
  updateReview := fun db rv => UpdateReview db rv
  deleteReview := fun db id => DeleteReview db id
  getReviewById := fun db id => (GetReviewById db id, db)

/-- Bodies the handler layer can emit: a Review serialization, the
ApiError envelope, or the delete confirmation object. -/
inductive ResponseBody where
  | reviewBody : Review → ResponseBody
  | errorBody : String → ResponseBody
  | deletedBody : ResponseBody
deriving Repr, DecidableEq

/-- An HTTP response: status code and JSON body.  `WriteJSON` is the
construction of such a value (encoding of the bodies above cannot
fail). -/
structure Response where
  status : Nat
  body : ResponseBody
deriving Repr, DecidableEq

/-- Outcome of running one `apiFunc` body: it panicked, it returned a
non-nil error without writing, or it wrote a response and returned
nil. -/
inductive HandlerStep where
  | panicked : HandlerStep
  | errored : String → HandlerStep
  | wrote : Response → HandlerStep
deriving Repr, DecidableEq

/-- Model of `strconv.Atoi`: optional sign, then at least one decimal digit,
and the value must fit in a 64-bit int. -/
def goAtoi (s : String) : Except String Int :=
  let cs := s.toList
  let (neg, ds) :=
    match cs with
    | '-' :: rest => (true, rest)
    | '+' :: rest => (false, rest)
    | _ => (false, cs)
  if ds = [] || !(ds.all isDigitChar) then
    Except.error ("strconv.Atoi: parsing " ++ s.quote ++ ": invalid syntax")
  else
    let n : Nat := ds.foldl (fun a c => a * 10 + digitVal c) 0
    if !neg && n ≤ 9223372036854775807 then Except.ok (n : Int)
    else if neg && n ≤ 9223372036854775808 then Except.ok (-(n : Int))
    else Except.error ("strconv.Atoi: parsing " ++ s.quote ++ ": value out of range")

/-- Model of `handleGetReview`: Atoi the path id (error wrapped as
"invalid id: ..."), fetch via the store (error wrapped as
"review not found: ..."), else write the review with status 200. -/
def handleGetReview {σ : Type} (ops : StorageOps σ) (idParam : String) (db : σ) :
    HandlerStep × σ :=
  match goAtoi idParam with
  | Except.error e => (HandlerStep.errored ("invalid id: " ++ e), db)
  | Except.ok id =>
    match ops.getReviewById db id with
    | (Except.error e, db') => (HandlerStep.errored ("review not found: " ++ e), db')
    | (Except.ok review, db') =>
      (HandlerStep.wrote { status := 200, body := ResponseBody.reviewBody review }, db')

/-- Model of `handleCreateReview`: decode the body (returning the decoder's
error verbatim on failure), build the review with `NewReview`, persist
it, and write the constructed review — not anything read back from the
database — with status 200.  `body` is the result of the JSON decode;
`now` is the current time during the call. -/
def handleCreateReview {σ : Type} (ops : StorageOps σ)
    (body : Except String CreateReviewRequest) (now : GoTime) (db : σ) :
    HandlerStep × σ :=
  match body with
  | Except.error e => (HandlerStep.errored e, db)
  | Except.ok req =>
    match NewReview req.Title req.Director req.ReleaseDate req.Rating req.ReviewNotes now with
    | none => (HandlerStep.panicked, db)
    | some review =>
      match ops.createReview db review with
      | (Except.error e, db') => (HandlerStep.errored e, db')
      | (Except.ok _, db') =>
        (HandlerStep.wrote { status := 200, body := ResponseBody.reviewBody review }, db')

/-- Model of `handleDeleteReview`: Atoi the path id, delete via the store, and
write the confirmation object with status 200. -/
def handleDeleteReview {σ : Type} (ops : StorageOps σ) (idParam : String) (db : σ) :
    HandlerStep × σ :=
  match goAtoi idParam with
  | Except.error e => (HandlerStep.errored ("invalid id: " ++ e), db)
  | Except.ok id =>
    match ops.deleteReview db id with
    | (Except.error e, db') => (HandlerStep.errored e, db')
    | (Except.ok _, db') =>
      (HandlerStep.wrote { status := 200, body := ResponseBody.deletedBody }, db')

/-- Model of `handleUpdateReview`: Atoi the path id, decode the body into a
Review, overwrite its `ID` with the path id, update via the store, and
write the request's review value with status 200. -/
def handleUpdateReview {σ : Type} (ops : StorageOps σ) (idParam : String)
    (body : Except String Review) (db : σ) : HandlerStep × σ :=
  match goAtoi idParam with
  | Except.error e => (HandlerStep.errored ("invalid id: " ++ e), db)
  | Except.ok id =>
    match body with
    | Except.error e => (HandlerStep.errored e, db)
    | Except.ok decoded =>
      let updateReview := { decoded with ID := id }
      match ops.updateReview db updateReview with
      | (Except.error e, db') => (HandlerStep.errored e, db')
      | (Except.ok _, db') =>
        (HandlerStep.wrote { status := 200, body := ResponseBody.reviewBody updateReview }, db')

/-- A request on one of the four registered routes, already split by
the router.  Path parameters arrive as raw strings; request bodies
arrive as the result the JSON decoder produced for them. -/
inductive Request where
  | createReq : Except String CreateReviewRequest → GoTime → Request
  | getReq : String → Request
  | deleteReq : String → Request
  | updateReq : String → Except String Review → Request
deriving Repr

/-- The `apiFunc` selected by the router for a request, run against
the store. -/
def routeApiFunc {σ : Type} (ops : StorageOps σ) (req : Request) (db : σ) :
    HandlerStep × σ :=
  match req with
  | Request.createReq body now => handleCreateReview ops body now db
  | Request.getReq idParam => handleGetReview ops idParam db
  | Request.deleteReq idParam => handleDeleteReview ops idParam db
  | Request.updateReq idParam body => handleUpdateReview ops idParam body db

/-- Model of `makeHttpHandleFunc`: the response actually emitted for an
`apiFunc` outcome — the wrapped function's own write on success, the
400 ApiError envelope when it returned an error, and no response at
all when it panicked. -/
def makeHttpHandleFunc (step : HandlerStep) : Option Response :=
  match step with
  | HandlerStep.panicked => none
  | HandlerStep.errored msg => some { status := 400, body := ResponseBody.errorBody msg }
  | HandlerStep.wrote resp => some resp

/-- One request through the full handler layer: route, run, wrap. -/
def serveRequest {σ : Type} (ops : StorageOps σ) (req : Request) (db : σ) :
    Option Response × σ :=
  let (step, db') := routeApiFunc ops req db
  (makeHttpHandleFunc step, db')

/-! ## Date normalization as a predicate on stored strings -/

/-- A string is a normalized date when it is the 19-byte slice of the
RFC822 serialization of some time — exactly what `NewReview` stores in
`releaseDate` and `dateCreated`. -/
def DateNormalized (s : String) : Prop :=
  ∃ t : GoTime, goSliceTo 19 (formatRFC822 t) = some s

/-! ## Concrete fixtures -/

/-- A current time for concrete scenarios: 15 Jan 26 10:30 UTC. -/
def nowJan2026 : GoTime :=
  { year := 2026, month := 1, day := 15, hour := 10, minute := 30,
    zoneName := "UTC", offsetMinutes := 0 }

/-- The spec's concrete create scenario. -/
def inceptionRequest : CreateReviewRequest :=
  { Title := "Inception", Director := "Christopher Nolan",
    ReleaseDate := "16 Jul 10 00:00 UTC", Rating := "9/10", ReviewNotes := "Great" }

/-- The review `NewReview` builds from `inceptionRequest` at
`nowJan2026`. -/
def createdInception : Review :=
  { ID := 0, Title := "Inception", Director := "Christopher Nolan",
    ReleaseDate := "16 Jul 10 00:00 UTC", Rating := "9/10", ReviewNotes := "Great",
    DateCreated := "15 Jan 26 10:30 UTC" }

/-- A persisted row with database-assigned id 1 and normalized dates. -/
def seededRow : Review :=
  { ID := 1, Title := "Inception", Director := "Christopher Nolan",
    ReleaseDate := "16 Jul 10 00:00 UTC", Rating := "9/10", ReviewNotes := "Great",
    DateCreated := "15 Jan 26 10:30 UTC" }

/-- A table holding `seededRow`, sequence at 2. -/
def seededTable : ReviewsTable := { rows := [seededRow], nextId := 2 }

/-- An update payload carrying a non-normalized release date. -/
def notADatePayload : Review :=
  { ID := 0, Title := "t2", Director := "d2", ReleaseDate := "not-a-date",
    Rating := "r2", ReviewNotes := "n2", DateCreated := "x" }

/-- An update payload addressed at the absent id 2. -/
def absentPayload : Review :=
  { ID := 2, Title := "t2", Director := "d2", ReleaseDate := "rd2",
    Rating := "r2", ReviewNotes := "n2", DateCreated := "dc2" }

/-- The time parsed from "01 Feb 05 23:59 CEST" (four-byte zone). -/
def cestTime : GoTime :=
  { year := 2005, month := 2, day := 1, hour := 23, minute := 59,
    zoneName := "CEST", offsetMinutes := 0 }

/-- The time parsed from "16 Jul 10 00:00 UTC". -/
def utc2010Jul16 : GoTime :=
  { year := 2010, month := 7, day := 16, hour := 0, minute := 0,
    zoneName := "UTC", offsetMinutes := 0 }

/-- The time parsed from "16 Jul 10 00:00 +03" (signed numeric-offset
zone, recorded as a fabricated zone named "+03"). -/
def plus03Time : GoTime :=
  { year := 2010, month := 7, day := 16, hour := 0, minute := 0,
    zoneName := "+03", offsetMinutes := 0 }

/-- A create request whose releaseDate does not parse. -/
def malformedRequest : CreateReviewRequest :=
  { Title := "t", Director := "d", ReleaseDate := "not-a-date",
    Rating := "r", ReviewNotes := "n" }

/-- An update payload addressed at the existing id 1. -/
def updatePayload1 : Review :=
  { ID := 1, Title := "t2", Director := "d2", ReleaseDate := "rd2",
    Rating := "r2", ReviewNotes := "n2", DateCreated := "dc2" }

/-! ## Helper lemmas -/

theorem length_of_goSliceTo {s r : String} (h : goSliceTo 19 s = some r) :
    r.length = 19 := by
  unfold goSliceTo at h
  split at h
  · next hle =>
    cases h
    have hlen : s.toList.length = s.length := rfl
    show (s.toList.take 19).length = 19
    rw [List.length_take, hlen]
    omega
  · exact absurd h (by simp)

theorem applyUpdate_ID (rv r : Review) : (applyUpdate rv r).ID = r.ID := by
  unfold applyUpdate
  split <;> rfl

theorem applyUpdate_applyUpdate (rv r : Review) :
    applyUpdate rv (applyUpdate rv r) = applyUpdate rv r := by
  unfold applyUpdate
  by_cases h : r.ID = rv.ID <;> simp [h]

theorem applyUpdate_DateCreated (rv r : Review) :
    (applyUpdate rv r).DateCreated = r.DateCreated := by
  unfold applyUpdate
  split <;> rfl

/-- Shape of every review `NewReview` can return: the id is the zero
value and both date fields are normalized. -/
theorem NewReview_eq_some {title director rd rating notes : String} {now : GoTime}
    {rv : Review}
    (h : NewReview title director rd rating notes now = some rv) :
    rv.ID = 0 ∧ rv.Title = title ∧ rv.Director = director ∧ rv.Rating = rating ∧
      rv.ReviewNotes = notes ∧ DateNormalized rv.ReleaseDate ∧
      DateNormalized rv.DateCreated := by
  unfold NewReview at h
  simp only [Option.bind_eq_bind, Option.bind_eq_some] at h
  obtain ⟨ds, hds, dc, hdc, hrv⟩ := h
  cases hrv
  exact ⟨rfl, rfl, rfl, rfl, rfl, ⟨_, hds⟩, ⟨_, hdc⟩⟩

/-! ## Length facts about the RFC822 serialization

Every piece of the layout has a fixed minimum width: two-digit padded
numbers, a three-byte month, and a zone that is at least three bytes
whenever it comes from a successful parse (shorter matches leave text
behind and fail the layout) or from a real location (tzdata and POSIX
abbreviations have at least three bytes; an unnamed zone prints the
five-byte numeric offset).  Hence the serialization is at least 19
bytes and the `[0:19]` slices of `NewReview` are in range. -/

theorem toDigitsCore_length_mono (fuel n : Nat) (ds : List Char) :
    ds.length ≤ (Nat.toDigitsCore 10 fuel n ds).length := by
  induction fuel generalizing n ds with
  | zero => simp [Nat.toDigitsCore]
  | succ f ih =>
    unfold Nat.toDigitsCore
    dsimp only
    split
    · simp
    · exact le_trans (by simp) (ih (n / 10) (Nat.digitChar (n % 10) :: ds))

theorem toDigitsCore_length_succ (fuel n : Nat) (ds : List Char) (hf : 1 ≤ fuel) :
    ds.length + 1 ≤ (Nat.toDigitsCore 10 fuel n ds).length := by
  cases fuel with
  | zero => omega
  | succ f =>
    unfold Nat.toDigitsCore
    dsimp only
    split
    · simp
    · exact le_trans (by simp) (toDigitsCore_length_mono f (n / 10) _)

theorem repr_length_pos (n : Nat) : 1 ≤ (Nat.repr n).length := by
  show 1 ≤ (Nat.toDigits 10 n).asString.length
  have h := toDigitsCore_length_succ (n + 1) n [] (by omega)
  simpa [Nat.toDigits, List.asString, String.length] using h

theorem repr_length_two (n : Nat) (h : 10 ≤ n) : 2 ≤ (Nat.repr n).length := by
  show 2 ≤ (Nat.toDigits 10 n).asString.length
  have hn : ¬ n / 10 = 0 := by omega
  have hstep : Nat.toDigitsCore 10 (n + 1) n []
      = Nat.toDigitsCore 10 n (n / 10) [Nat.digitChar (n % 10)] := by
    conv_lhs => unfold Nat.toDigitsCore
    rw [if_neg hn]
  have hlen := toDigitsCore_length_succ n (n / 10) [Nat.digitChar (n % 10)] (by omega)
  simp only [Nat.toDigits, List.asString, String.length, hstep]
  simpa using hlen

theorem pad2_length (n : Nat) : 2 ≤ (pad2 n).length := by
  unfold pad2
  split
  · rw [String.length_append]
    have h1 := repr_length_pos n
    have h0 : ("0" : String).length = 1 := rfl
    omega
  · next h => exact repr_length_two n (by omega)

theorem monthAbbr_length (m : Nat) : (monthAbbr m).length = 3 := by
  show (shortMonthNames.getD (m - 1) ['?','?','?']).length = 3
  by_cases h : m - 1 < 12
  · have hall : ∀ i, i < 12 → (shortMonthNames.getD i ['?','?','?']).length = 3 := by decide
    exact hall _ h
  · have hlen : shortMonthNames.length ≤ m - 1 := by
      have : shortMonthNames.length = 12 := rfl
      omega
    rw [List.getD_eq_default _ _ hlen]
    rfl

theorem formatNumericZone_length (o : Int) : 5 ≤ (formatNumericZone o).length := by
  unfold formatNumericZone
  rw [String.length_append, String.length_append]
  have h1 := pad2_length (o.natAbs / 60)
  have h2 := pad2_length (o.natAbs % 60)
  have hs : (if o < 0 then "-" else "+").length = 1 := by split <;> rfl
  omega

theorem formatRFC822_length (t : GoTime)
    (hz : t.zoneName = "" ∨ 3 ≤ t.zoneName.length) :
    19 ≤ (formatRFC822 t).length := by
  unfold formatRFC822
  simp only [String.length_append]
  have h1 := pad2_length t.day
  have h2 := monthAbbr_length t.month
  have h3 := pad2_length (t.year % 100)
  have h4 := pad2_length t.hour
  have h5 := pad2_length t.minute
  have hsp : (" " : String).length = 1 := rfl
  have hco : (":" : String).length = 1 := rfl
  have hzl : 3 ≤ (if t.zoneName = "" then formatNumericZone t.offsetMinutes
      else t.zoneName).length := by
    split
    · next he =>
      have := formatNumericZone_length t.offsetMinutes
      omega
    · next he =>
      rcases hz with h | h
      · exact absurd h he
      · exact h
  omega

theorem parseTimeZone_some_length {s0 : List Char} {n : Nat}
    (h : parseTimeZone s0 = some n) : 3 ≤ s0.length := by
  unfold parseTimeZone at h
  by_cases h3 : s0.length < 3
  · rw [if_pos h3] at h
    cases h
  · omega

theorem parseZone_full {s0 z r : List Char}
    (h : parseZone s0 = some (z, r)) (hr : r = []) : 3 ≤ z.length := by
  unfold parseZone at h
  split at h
  · next hUTC =>
    cases h
    rfl
  · next hUTC =>
    cases hptz : parseTimeZone s0 with
    | none =>
      rw [hptz] at h
      cases h
    | some n =>
      rw [hptz] at h
      cases h
      have hlen : 3 ≤ s0.length := parseTimeZone_some_length hptz
      have hle : s0.length ≤ n := by
        rw [← List.drop_eq_nil_iff]
        exact hr
      rw [List.length_take]
      omega

/-- A successful parse consumes the whole remainder as the zone
abbreviation, which therefore has at least three bytes. -/
theorem timeParse_zone_min_length {s : String} {t : GoTime}
    (h : timeParseRFC822 s = some t) : 3 ≤ t.zoneName.length := by
  unfold timeParseRFC822 at h
  simp only [Option.bind_eq_bind, Option.bind_eq_some] at h
  obtain ⟨⟨day, r1⟩, h1, h⟩ := h
  obtain ⟨r2, h2, h⟩ := h
  obtain ⟨⟨month, r3⟩, h3, h⟩ := h
  obtain ⟨r4, h4, h⟩ := h
  obtain ⟨⟨year, r5⟩, h5, h⟩ := h
  obtain ⟨r6, h6, h⟩ := h
  obtain ⟨⟨hour, r7⟩, h7, h⟩ := h
  obtain ⟨r8, h8, h⟩ := h
  obtain ⟨⟨minute, r9⟩, h9, h⟩ := h
  obtain ⟨r10, h10, h⟩ := h
  obtain ⟨⟨zone, r11⟩, h11, h⟩ := h
  split at h
  · next hcond =>
    cases h
    exact parseZone_full h11 hcond.1
  · cases h

/-! ## Claim theorems -/

/-- C1: on the spec's concrete valid create request, the create
handler does respond 200 with a Review whose dateCreated is the
current time — but the Review's id is 0, not non-zero: `NewReview`
never assigns `ID` and the INSERT never reports the database-assigned
id (1, as the persisted row shows) back to the handler. -/
theorem create_response_has_zero_id :
    (handleCreateReview pgStorage (Except.ok inceptionRequest) nowJan2026 emptyReviews).1
        = HandlerStep.wrote { status := 200, body := ResponseBody.reviewBody createdInception } ∧
      createdInception.ID = 0 ∧
      createdInception.DateCreated = "15 Jan 26 10:30 UTC" ∧
      (handleCreateReview pgStorage (Except.ok inceptionRequest) nowJan2026 emptyReviews).2.rows.map
          Review.ID = [1] := by
  refine ⟨rfl, rfl, rfl, rfl⟩

/-- C10: review construction never panics.  Every successfully
parsed zone abbreviation has at least three bytes (a shorter match
would leave text behind and fail the layout), and the current time's
zone abbreviation has at least three bytes or is unnamed (tzdata and
POSIX abbreviations are at least three bytes; an unnamed zone prints
the five-byte numeric offset), so both RFC822 serializations sliced
with [0:19] have length at least 19 and `NewReview` returns.  In
particular the two-letter "UT" zone is rejected by the parser's
length guard and falls back to the current time rather than
producing a short string. -/
theorem newReview_never_panics (title director rd rating notes : String) (now : GoTime)
    (hnow : now.zoneName = "" ∨ 3 ≤ now.zoneName.length) :
    19 ≤ (formatRFC822 ((timeParseRFC822 rd).getD now)).length ∧
      19 ≤ (formatRFC822 now).length ∧
      ∃ rv : Review, NewReview title director rd rating notes now = some rv := by
  have hn : 19 ≤ (formatRFC822 now).length := formatRFC822_length now hnow
  have hdt : 19 ≤ (formatRFC822 ((timeParseRFC822 rd).getD now)).length := by
    cases hp : timeParseRFC822 rd with
    | none => simpa using hn
    | some t =>
      have h3 := timeParse_zone_min_length hp
      simpa using formatRFC822_length t (Or.inr h3)
  have hs1 : goSliceTo 19 (formatRFC822 ((timeParseRFC822 rd).getD now))
      = some (String.mk ((formatRFC822 ((timeParseRFC822 rd).getD now)).toList.take 19)) := by
    unfold goSliceTo
    rw [if_pos hdt]
  have hs2 : goSliceTo 19 (formatRFC822 now)
      = some (String.mk ((formatRFC822 now).toList.take 19)) := by
    unfold goSliceTo
    rw [if_pos hn]
  refine ⟨hdt, hn, ?_, ?_⟩
  exact { ID := 0, Title := title, Director := director,
          ReleaseDate := String.mk
            ((formatRFC822 ((timeParseRFC822 rd).getD now)).toList.take 19),
          Rating := rating, ReviewNotes := notes,
          DateCreated := String.mk ((formatRFC822 now).toList.take 19) }
  simp only [NewReview, Option.bind_eq_bind, hs1, hs2, Option.some_bind]

/-- Witness for C10 at the two-letter-zone input "02 Jan 06 15:04 UT":
the parse fails (the abbreviation is shorter than three bytes), the
construction falls back to the current time and returns normally. -/
theorem newReview_never_panics_witness :
    timeParseRFC822 "02 Jan 06 15:04 UT" = none ∧
      (19 ≤ (formatRFC822 ((timeParseRFC822 "02 Jan 06 15:04 UT").getD nowJan2026)).length ∧
        19 ≤ (formatRFC822 nowJan2026).length ∧
        ∃ rv : Review,
          NewReview "Inception" "Christopher Nolan" "02 Jan 06 15:04 UT" "9/10" "Great"
            nowJan2026 = some rv) :=
  ⟨rfl, newReview_never_panics "Inception" "Christopher Nolan" "02 Jan 06 15:04 UT"
    "9/10" "Great" nowJan2026 (Or.inr (by decide))⟩

/-- C5 (counterexample): for the successfully parsed input
"16 Jul 10 00:00 UTC" the stored releaseDate is the full 19-byte
re-serialization "16 Jul 10 00:00 UTC" — the [0:19] prefix retains the
three-byte zone abbreviation, contradicting "no time-zone suffix"
(which would give "16 Jul 10 00:00"). -/
theorem normalized_date_keeps_zone :
    timeParseRFC822 "16 Jul 10 00:00 UTC"
        = some { year := 2010, month := 7, day := 16, hour := 0, minute := 0,
                 zoneName := "UTC", offsetMinutes := 0 } ∧
      (NewReview "Inception" "Christopher Nolan" "16 Jul 10 00:00 UTC" "9/10" "Great"
            nowJan2026).map Review.ReleaseDate = some "16 Jul 10 00:00 UTC" ∧
      "16 Jul 10 00:00 UTC" ≠ "16 Jul 10 00:00" := by
  refine ⟨rfl, rfl, by decide⟩

/-- C5 (amended): for every successfully parsed releaseDate input
(and a current time whose zone abbreviation has at least three bytes
or is unnamed, as real locations guarantee), the stored releaseDate is
the RFC822 re-serialization truncated to its first 19 bytes — which
keeps the date and time and up to the first three bytes of the zone
abbreviation, and drops the rest.  Every parse — named abbreviations
such as "UTC" or "CEST" and signed numeric-offset zones such as
"+03" alike — yields a zone of at least three bytes, so the
serialization is at least 19 bytes and the slice is in range. -/
theorem parsed_date_reserialized_truncated (title director rd rating notes : String)
    (now t : GoTime)
    (hparse : timeParseRFC822 rd = some t)
    (hnow : now.zoneName = "" ∨ 3 ≤ now.zoneName.length) :
    (NewReview title director rd rating notes now).map Review.ReleaseDate
      = goSliceTo 19 (formatRFC822 t) := by
  have hlen : 19 ≤ (formatRFC822 t).length :=
    formatRFC822_length t (Or.inr (timeParse_zone_min_length hparse))
  have hn : 19 ≤ (formatRFC822 now).length := formatRFC822_length now hnow
  unfold NewReview goSliceTo
  rw [hparse]
  simp [Option.getD, hlen, hn]

/-- Witness for C5's amended theorem at two concrete inputs: the
20-byte serialization of "01 Feb 05 23:59 CEST" is truncated to
"01 Feb 05 23:59 CES", and the numeric-offset zone input
"16 Jul 10 00:00 +03" is stored whole (exactly 19 bytes). -/
theorem parsed_date_reserialized_truncated_witness :
    ((NewReview "t" "d" "01 Feb 05 23:59 CEST" "r" "n" nowJan2026).map Review.ReleaseDate
        = goSliceTo 19 (formatRFC822 cestTime) ∧
      goSliceTo 19 (formatRFC822 cestTime) = some "01 Feb 05 23:59 CES") ∧
      ((NewReview "t" "d" "16 Jul 10 00:00 +03" "r" "n" nowJan2026).map Review.ReleaseDate
        = goSliceTo 19 (formatRFC822 plus03Time) ∧
      goSliceTo 19 (formatRFC822 plus03Time) = some "16 Jul 10 00:00 +03") :=
  ⟨⟨parsed_date_reserialized_truncated "t" "d" "01 Feb 05 23:59 CEST" "r" "n"
      nowJan2026 cestTime rfl (Or.inr (by decide)), rfl⟩,
    ⟨parsed_date_reserialized_truncated "t" "d" "16 Jul 10 00:00 +03" "r" "n"
      nowJan2026 plus03Time rfl (Or.inr (by decide)), rfl⟩⟩

/-- C6: the round-trip by the id the create returns fails.  The
create response carries id 0 (see the body below), the row is
persisted under the database-assigned id 1, and reading back id 0
yields the not-found error, not a field-for-field equal Review. -/
theorem roundtrip_by_returned_id_fails :
    (handleCreateReview pgStorage (Except.ok inceptionRequest) nowJan2026 emptyReviews).1
        = HandlerStep.wrote { status := 200, body := ResponseBody.reviewBody createdInception } ∧
      createdInception.ID = 0 ∧
      (handleCreateReview pgStorage (Except.ok inceptionRequest) nowJan2026
            emptyReviews).2.rows.map Review.ID = [1] ∧
      GetReviewById
          (handleCreateReview pgStorage (Except.ok inceptionRequest) nowJan2026 emptyReviews).2 0
        = Except.error "failed to get review: sql: no rows in result set" := by
  refine ⟨rfl, rfl, rfl, rfl⟩

/-- Any response a wrapped handler writes itself carries status
200: each success path of the four handlers constructs its response
with `http.StatusOK`. -/
theorem wrote_status_200 {σ : Type} (ops : StorageOps σ) (req : Request) (db : σ)
    (resp : Response) (h : (routeApiFunc ops req db).1 = HandlerStep.wrote resp) :
    resp.status = 200 := by
  cases req with
  | createReq body now =>
    simp only [routeApiFunc] at h
    cases body with
    | error e =>
      simp only [handleCreateReview] at h
      simp at h
    | ok r =>
      simp only [handleCreateReview] at h
      cases hnr : NewReview r.Title r.Director r.ReleaseDate r.Rating r.ReviewNotes now with
      | none =>
        rw [hnr] at h
        simp at h
      | some review =>
        rw [hnr] at h
        simp only [Option.some.injEq] at h
        rcases hc : ops.createReview db review with ⟨res, dbp⟩
        rw [hc] at h
        cases res with
        | error e => simp at h
        | ok m =>
          simp at h
          rw [← h]
  | getReq idParam =>
    simp only [routeApiFunc, handleGetReview] at h
    cases hid : goAtoi idParam with
    | error e =>
      rw [hid] at h
      simp at h
    | ok id =>
      rw [hid] at h
      simp only [Except.ok.injEq] at h
      rcases hg : ops.getReviewById db id with ⟨res, dbp⟩
      rw [hg] at h
      cases res with
      | error e => simp at h
      | ok review =>
        simp at h
        rw [← h]
  | deleteReq idParam =>
    simp only [routeApiFunc, handleDeleteReview] at h
    cases hid : goAtoi idParam with
    | error e =>
      rw [hid] at h
      simp at h
    | ok id =>
      rw [hid] at h
      simp only [Except.ok.injEq] at h
      rcases hd : ops.deleteReview db id with ⟨res, dbp⟩
      rw [hd] at h
      cases res with
      | error e => simp at h
      | ok m =>
        simp at h
        rw [← h]
  | updateReq idParam body =>
    simp only [routeApiFunc, handleUpdateReview] at h
    cases hid : goAtoi idParam with
    | error e =>
      rw [hid] at h
      simp at h
    | ok id =>
      rw [hid] at h
      simp only [Except.ok.injEq] at h
      cases body with
      | error e => simp at h
      | ok decoded =>
        simp only [Except.ok.injEq] at h
        rcases hu : ops.updateReview db { decoded with ID := id } with ⟨res, dbp⟩
        rw [hu] at h
        cases res with
        | error e => simp at h
        | ok m =>
          simp at h
          rw [← h]

/-- C2: over every storage backend, every route and every request, a
response emitted by the handler layer has status 200 or 400 (a panic
emits none), and an error returned by the wrapped handler is emitted
as status 400 with the ApiError envelope carrying the message. -/
theorem handler_layer_emits_only_200_or_400 :
    (∀ (σ : Type) (ops : StorageOps σ) (req : Request) (db : σ),
        match (serveRequest ops req db).1 with
        | some resp => resp.status = 200 ∨ resp.status = 400
        | none => True) ∧
      ∀ msg : String,
        makeHttpHandleFunc (HandlerStep.errored msg)
          = some { status := 400, body := ResponseBody.errorBody msg } := by
  constructor
  · intro σ ops req db
    have hserve : (serveRequest ops req db).1 = makeHttpHandleFunc (routeApiFunc ops req db).1 :=
      rfl
    rw [hserve]
    cases hstep : (routeApiFunc ops req db).1 with
    | panicked => simp [makeHttpHandleFunc]
    | errored msg => simp [makeHttpHandleFunc]
    | wrote resp =>
      simp only [makeHttpHandleFunc]
      exact Or.inl (wrote_status_200 ops req db resp hstep)
  · intro msg
    rfl

/-- C3: for an id matching no row, getById returns the wrapped
sql.ErrNoRows failure, and update and delete observe zero affected
rows and return the not-found error — never a silent success. -/
theorem absent_id_read_update_delete_not_found (db : ReviewsTable) (id : Int)
    (rv : Review) (habs : ∀ r ∈ db.rows, r.ID ≠ id) (hrv : rv.ID = id) :
    GetReviewById db id = Except.error "failed to get review: sql: no rows in result set" ∧
      (UpdateReview db rv).1
        = Except.error ("review with id " ++ toString id ++ " not found") ∧
      (DeleteReview db id).1
        = Except.error ("review with id " ++ toString id ++ " not found") := by
  have hfind : db.rows.find? (fun r => r.ID == id) = none := by
    rw [List.find?_eq_none]
    intro r hr
    simpa using habs r hr
  have hcount : db.rows.countP (fun r => r.ID == id) = 0 := by
    rw [List.countP_eq_zero]
    intro r hr
    simpa using habs r hr
  refine ⟨?_, ?_, ?_⟩
  · unfold GetReviewById
    rw [hfind]
  · unfold UpdateReview
    rw [hrv, hcount]
    simp
  · unfold DeleteReview
    rw [hcount]
    simp

/-- Witness for C3 at id 2 against the one-row table. -/
theorem absent_id_read_update_delete_not_found_witness :
    GetReviewById seededTable 2
        = Except.error "failed to get review: sql: no rows in result set" ∧
      (UpdateReview seededTable absentPayload).1
        = Except.error ("review with id " ++ toString (2 : Int) ++ " not found") ∧
      (DeleteReview seededTable 2).1
        = Except.error ("review with id " ++ toString (2 : Int) ++ " not found") :=
  absent_id_read_update_delete_not_found seededTable 2 absentPayload
    (by intro r hr; simp [seededTable, seededRow] at hr; simp [hr, seededRow]) rfl

/-- C4: when the releaseDate input fails to parse (and the current
time's zone abbreviation has at least three bytes or is unnamed, as
every real location guarantees), review construction does not fail or
reject the request: the current timestamp is substituted for
releaseDate and the create handler proceeds to a 200 response and an
INSERT. -/
theorem malformed_date_falls_back_to_now (req : CreateReviewRequest) (now : GoTime)
    (db : ReviewsTable)
    (hparse : timeParseRFC822 req.ReleaseDate = none)
    (hznow : now.zoneName = "" ∨ 3 ≤ now.zoneName.length) :
    ∃ review : Review,
      NewReview req.Title req.Director req.ReleaseDate req.Rating req.ReviewNotes now
          = some review ∧
        goSliceTo 19 (formatRFC822 now) = some review.ReleaseDate ∧
        review.DateCreated = review.ReleaseDate ∧
        (handleCreateReview pgStorage (Except.ok req) now db).1
          = HandlerStep.wrote { status := 200, body := ResponseBody.reviewBody review } ∧
        (handleCreateReview pgStorage (Except.ok req) now db).2.rows
          = db.rows ++ [{ review with ID := db.nextId }] := by
  have hnow : 19 ≤ (formatRFC822 now).length := formatRFC822_length now hznow
  have hslice : goSliceTo 19 (formatRFC822 now)
      = some (String.mk ((formatRFC822 now).toList.take 19)) := by
    unfold goSliceTo
    rw [if_pos hnow]
  have hnr : NewReview req.Title req.Director req.ReleaseDate req.Rating req.ReviewNotes now
      = some { ID := 0, Title := req.Title, Director := req.Director,
               ReleaseDate := String.mk ((formatRFC822 now).toList.take 19),
               Rating := req.Rating, ReviewNotes := req.ReviewNotes,
               DateCreated := String.mk ((formatRFC822 now).toList.take 19) } := by
    unfold NewReview
    rw [hparse]
    simp only [Option.getD, Option.bind_eq_bind, hslice]
    rfl
  refine ⟨_, hnr, hslice, rfl, ?_, ?_⟩
  · simp only [handleCreateReview, hnr, pgStorage, CreateReview]
  · simp only [handleCreateReview, hnr, pgStorage, CreateReview]

/-- Witness for C4: "not-a-date" does not parse, and the fallback
applies at the concrete current time. -/
theorem malformed_date_falls_back_to_now_witness :
    timeParseRFC822 malformedRequest.ReleaseDate = none ∧
      ∃ review : Review,
        NewReview malformedRequest.Title malformedRequest.Director malformedRequest.ReleaseDate
            malformedRequest.Rating malformedRequest.ReviewNotes nowJan2026 = some review ∧
          goSliceTo 19 (formatRFC822 nowJan2026) = some review.ReleaseDate ∧
          review.DateCreated = review.ReleaseDate ∧
          (handleCreateReview pgStorage (Except.ok malformedRequest) nowJan2026 emptyReviews).1
            = HandlerStep.wrote { status := 200, body := ResponseBody.reviewBody review } ∧
          (handleCreateReview pgStorage (Except.ok malformedRequest) nowJan2026 emptyReviews).2.rows
            = emptyReviews.rows ++ [{ review with ID := emptyReviews.nextId }] :=
  ⟨rfl, malformed_date_falls_back_to_now malformedRequest nowJan2026 emptyReviews rfl
    (Or.inr (by decide))⟩

/-- The second component of `UpdateReview` is the post-UPDATE table in
both the found and the zero-rows case (in the latter the map is the
identity). -/
theorem UpdateReview_snd (db : ReviewsTable) (rv : Review) :
    (UpdateReview db rv).2 = { db with rows := db.rows.map (applyUpdate rv) } := by
  simp only [UpdateReview]
  split <;> rfl

theorem countP_map_applyUpdate (l : List Review) (rv : Review) :
    (l.map (applyUpdate rv)).countP (fun r => r.ID == rv.ID)
      = l.countP (fun r => r.ID == rv.ID) := by
  rw [List.countP_map]
  congr 1
  funext r
  simp [Function.comp, applyUpdate_ID]

/-- C7: for a payload whose id exists in the table, the update
succeeds, and running the same update again yields the same final
table (and succeeds again): the UPDATE's SET clause is idempotent. -/
theorem update_idempotent_on_retry (db : ReviewsTable) (rv : Review)
    (h : ∃ r ∈ db.rows, r.ID = rv.ID) :
    (UpdateReview db rv).1 = Except.ok () ∧
      UpdateReview (UpdateReview db rv).2 rv = (Except.ok (), (UpdateReview db rv).2) := by
  have hcount : db.rows.countP (fun r => r.ID == rv.ID) ≠ 0 := by
    obtain ⟨r, hr, hid⟩ := h
    have hpos : 0 < db.rows.countP (fun r => r.ID == rv.ID) :=
      List.countP_pos_iff.mpr ⟨r, hr, by simp [hid]⟩
    omega
  constructor
  · simp only [UpdateReview]
    rw [if_neg hcount]
  · rw [UpdateReview_snd]
    have hc2 : ((db.rows.map (applyUpdate rv)).countP (fun r => r.ID == rv.ID)) ≠ 0 := by
      rw [countP_map_applyUpdate]
      exact hcount
    simp only [UpdateReview]
    rw [if_neg hc2]
    have hmm : (db.rows.map (applyUpdate rv)).map (applyUpdate rv)
        = db.rows.map (applyUpdate rv) := by
      rw [List.map_map]
      congr 1
      funext r
      exact applyUpdate_applyUpdate rv r
    rw [hmm]

/-- Witness for C7 against the one-row table. -/
theorem update_idempotent_on_retry_witness :
    (UpdateReview seededTable updatePayload1).1 = Except.ok () ∧
      UpdateReview (UpdateReview seededTable updatePayload1).2 updatePayload1
        = (Except.ok (), (UpdateReview seededTable updatePayload1).2) :=
  update_idempotent_on_retry seededTable updatePayload1
    ⟨seededRow, by simp [seededTable], rfl⟩

/-- C8: a successful update leaves the table's row list aligned
one-to-one with the old one; each row keeps its id and its
dateCreated (the UPDATE's SET clause never mentions id or
dateCreated), rows with a different id are untouched, and the matched
row takes exactly the payload's five mutable fields. -/
theorem update_preserves_id_and_dateCreated (db : ReviewsTable) (rv : Review)
    (h : (UpdateReview db rv).1 = Except.ok ()) :
    (UpdateReview db rv).2.nextId = db.nextId ∧
      List.Forall₂
        (fun r r' : Review =>
          r'.ID = r.ID ∧ r'.DateCreated = r.DateCreated ∧
            (r.ID ≠ rv.ID → r' = r) ∧
            (r.ID = rv.ID → r'.Title = rv.Title ∧ r'.Director = rv.Director ∧
              r'.ReleaseDate = rv.ReleaseDate ∧ r'.Rating = rv.Rating ∧
              r'.ReviewNotes = rv.ReviewNotes))
        db.rows (UpdateReview db rv).2.rows := by
  rw [UpdateReview_snd]
  refine ⟨rfl, ?_⟩
  rw [List.forall₂_map_right_iff, List.forall₂_same]
  intro r hr
  unfold applyUpdate
  by_cases hid : r.ID = rv.ID <;> simp [hid]

/-- Witness for C8: the concrete update against the one-row table
succeeds and satisfies the frame conditions. -/
theorem update_preserves_id_and_dateCreated_witness :
    (UpdateReview seededTable updatePayload1).2.nextId = seededTable.nextId ∧
      List.Forall₂
        (fun r r' : Review =>
          r'.ID = r.ID ∧ r'.DateCreated = r.DateCreated ∧
            (r.ID ≠ updatePayload1.ID → r' = r) ∧
            (r.ID = updatePayload1.ID → r'.Title = updatePayload1.Title ∧
              r'.Director = updatePayload1.Director ∧
              r'.ReleaseDate = updatePayload1.ReleaseDate ∧
              r'.Rating = updatePayload1.Rating ∧
              r'.ReviewNotes = updatePayload1.ReviewNotes))
        seededTable.rows (UpdateReview seededTable updatePayload1).2.rows :=
  update_preserves_id_and_dateCreated seededTable updatePayload1 rfl

/-- C9 (counterexample): the invariant "every persisted releaseDate is
normalized" is not preserved by the update path.  Starting from a
table whose one row holds the normalized "16 Jul 10 00:00 UTC", a PUT
with body releaseDate "not-a-date" succeeds and leaves the row holding
"not-a-date", which is not a normalized date (its length is 10, not
19). -/
theorem update_breaks_date_normalization :
    DateNormalized seededRow.ReleaseDate ∧
      (handleUpdateReview pgStorage "1" (Except.ok notADatePayload) seededTable).2.rows.map
          Review.ReleaseDate = ["not-a-date"] ∧
      ¬ DateNormalized "not-a-date" := by
  refine ⟨⟨utc2010Jul16, rfl⟩, rfl, ?_⟩
  rintro ⟨t, ht⟩
  have h19 := length_of_goSliceTo ht
  exact absurd h19 (by decide)

/-- C9 (amended): rows written through the create path hold normalized
releaseDates — handleCreateReview preserves the invariant — while the
update path stores the payload's releaseDate string verbatim into
every matched row, so update does not maintain the invariant. -/
theorem create_path_preserves_date_normalization (db : ReviewsTable)
    (body : CreateReviewRequest) (now : GoTime)
    (h : ∀ r ∈ db.rows, DateNormalized r.ReleaseDate) :
    (∀ r ∈ (handleCreateReview pgStorage (Except.ok body) now db).2.rows,
        DateNormalized r.ReleaseDate) ∧
      ∀ rv : Review,
        (UpdateReview db rv).2.rows.map Review.ReleaseDate
          = db.rows.map (fun r => if r.ID = rv.ID then rv.ReleaseDate else r.ReleaseDate) := by
  constructor
  · simp only [handleCreateReview]
    cases hnr : NewReview body.Title body.Director body.ReleaseDate body.Rating
        body.ReviewNotes now with
    | none =>
      exact h
    | some review =>
      show ∀ r ∈ db.rows ++ [{ review with ID := db.nextId }], DateNormalized r.ReleaseDate
      intro r hr
      rcases List.mem_append.mp hr with hr | hr
      · exact h r hr
      · have hn := (NewReview_eq_some hnr).2.2.2.2.2.1
        have hrr : r = { review with ID := db.nextId } := List.mem_singleton.mp hr
        rw [hrr]
        exact hn
  · intro rv
    rw [UpdateReview_snd]
    show (db.rows.map (applyUpdate rv)).map Review.ReleaseDate = _
    rw [List.map_map]
    congr 1
    funext r
    unfold applyUpdate
    by_cases hid : r.ID = rv.ID <;> simp [hid, Function.comp]

/-- Witness for C9's amended theorem against the one-row table. -/
theorem create_path_preserves_date_normalization_witness :
    (∀ r ∈ (handleCreateReview pgStorage (Except.ok inceptionRequest) nowJan2026
        seededTable).2.rows, DateNormalized r.ReleaseDate) ∧
      ∀ rv : Review,
        (UpdateReview seededTable rv).2.rows.map Review.ReleaseDate
          = seededTable.rows.map
              (fun r => if r.ID = rv.ID then rv.ReleaseDate else r.ReleaseDate) :=
  create_path_preserves_date_normalization seededTable inceptionRequest nowJan2026
    (by
      intro r hr
      simp only [seededTable, List.mem_singleton] at hr
      rw [hr]
      exact ⟨utc2010Jul16, rfl⟩)

end GoBackend
